import Mathlib

/-!
Verification development for the VICAL (Verified Issuer Certificate Authority
List) parser of this repository (src/src/parser.ts, src/src/types.ts).

The parser consumes the dynamically-typed value tree produced by the external
CBOR decoder (cbor-x).  We embed that value tree as the inductive `Value`,
JavaScript `Date` objects as `JSDate` (a JS date is either a valid instant,
measured in milliseconds since the Unix epoch, or the Invalid Date value),
and JavaScript `Map` keys as `JSKey` (a CBOR map decoded by cbor-x can carry
integer keys, while `new Map(Object.entries(o))` always produces string
keys; JS Map lookup uses SameValueZero equality, under which the number 33
and the string "33" are distinct).

The external platform primitives that the source calls are modelled as
follows: the CBOR decoder is a parameter `dec`; RFC-3339 string-to-date
parsing (`new Date(string)`, which never throws and yields Invalid Date on
unparsable input) is a parameter `f : String → JSDate`; `String(·)` and
`Number(·)` coercions are the total functions `jsToString` / `jsToNumber`
(their exact rendering of composite values is never relied upon).
JavaScript numbers are embedded as integers (the only numeric values the
claims exercise); consequently the RangeError that `BigInt` raises on a
non-integral number, and CBOR undefined values, are outside the
embedding.  JS truthiness is the function `truthy`.  Property access on
null throws a TypeError in JS; the one place the parser can perform it —
the first field read of `parseCertificateInfo` on a null record — is
modelled explicitly there as a thrown (non-VICALParseError) failure.
-/

/-- A JavaScript `Date`: either a valid instant (milliseconds since the
Unix epoch) or the Invalid Date value produced e.g. by `new Date("junk")`. -/
inductive JSDate where
  | valid (ms : Int)
  | invalid
  deriving DecidableEq, Repr

/-- A JavaScript Map key as produced by the decode pipeline: either a number
or a string.  JS `Map.get` uses SameValueZero, so `int 33 ≠ str "33"`. -/
inductive JSKey where
  | int (i : Int)
  | str (s : String)
  deriving DecidableEq, Repr

/-- The dynamically-typed value tree produced by the external CBOR decoder,
restricted to the runtime shapes the parser inspects:
`vNull` (JS null), booleans, numbers (embedded as integers), bigints,
strings, byte strings (Buffer/Uint8Array, as a list of byte values),
arrays, JS `Map`s (integer or string keys), plain objects (string keys),
JS `Date`s, and cbor-x `Tag` objects (fields `tag` and `value`). -/
inductive Value where
  | vNull
  | vBool (b : Bool)
  | vNum (n : Int)
  | vBigInt (n : Int)
  | vStr (s : String)
  | vBytes (bs : List Nat)
  | vArr (xs : List Value)
  | vMap (entries : List (JSKey × Value))
  | vObj (fields : List (String × Value))
  | vDate (d : JSDate)
  | vTagged (tag : Int) (val : Value)

/-- The single error class thrown by the parser
(`class VICALParseError extends Error`), carrying a message and an
optional underlying cause. -/
structure VICALParseError where
  message : String
  cause : Option String := none
  deriving DecidableEq, Repr

/-- A JavaScript exception escaping `parseVICAL`: either the repository's
`VICALParseError`, or an error thrown by the external decoder library. -/
inductive JSError where
  | vical (e : VICALParseError)
  | thrown (msg : String)
  deriving DecidableEq, Repr

/-- JS `typeof` on an embedded value (typeof null is "object"). -/
def typeofStr : Value → String
  | .vNull => "object"
  | .vBool _ => "boolean"
  | .vNum _ => "number"
  | .vBigInt _ => "bigint"
  | .vStr _ => "string"
  | _ => "object"

/-- JS truthiness: null, false, 0, 0n and "" are falsy; every object
(arrays, buffers, maps, dates, tags) is truthy. -/
def truthy : Value → Bool
  | .vNull => false
  | .vBool b => b
  | .vNum n => n != 0
  | .vBigInt n => n != 0
  | .vStr s => s != ""
  | _ => true

/-- Field lookup in a decoded record (`data.k` on a plain JS object whose
fields we hold as an association list). -/
def getField (data : List (String × Value)) (k : String) : Option Value :=
  (data.find? (fun p => p.1 == k)).map (fun p => p.2)

/-- Presence-and-truthiness test used by the source's `if (!data.k)` checks:
an absent field is `undefined` (falsy), a present field is tested by JS
truthiness. -/
def truthyField (data : List (String × Value)) (k : String) : Bool :=
  match getField data k with
  | some v => truthy v
  | none => false

/-- The value of a field known to be present (`vNull` stands in for the
absent case, which callers rule out beforehand). -/
def fieldOr (data : List (String × Value)) (k : String) : Value :=
  (getField data k).getD .vNull

/-- JS string-keyed property access on a NON-NULL value (`x.k` after the
source's `as Record<string, unknown>` cast applied to an `unknown`
value): plain objects expose their fields, cbor-x Tag objects expose
`tag` and `value`; on every other non-null runtime shape (primitives
box, buffers/arrays/maps/dates have no such own properties) the
properties this parser reads are `undefined`.  Property access on null
THROWS in JS, so every caller must rule null out first: unwrapEnvelope
and extractAlgorithm sit behind the source's explicit `!== null` guards,
and parseCertificateInfo models the throw before any read.  The `vNull`
equation here is therefore never consulted on a program path; it exists
only to keep the function total. -/
def jsProp : Value → String → Option Value
  | .vObj fs, k => getField fs k
  | .vTagged t v, k =>
      if k == "tag" then some (.vNum t)
      else if k == "value" then some v
      else none
  | _, _ => none

/-- `if (!x.k)` on an arbitrary value. -/
def truthyProp (x : Value) (k : String) : Bool :=
  match jsProp x k with
  | some v => truthy v
  | none => false

/-- The value of a property known to be present. -/
def propOr (x : Value) (k : String) : Value :=
  (jsProp x k).getD .vNull

/-- Model of the JS `String(·)` coercion.  Scalars are rendered exactly;
the rendering of composite values (never inspected by any claim) is
abbreviated. -/
def jsToString : Value → String
  | .vStr s => s
  | .vNum n => toString n
  | .vBigInt n => toString n
  | .vBool b => if b then "true" else "false"
  | .vNull => "null"
  | .vBytes _ => "[Buffer]"
  | .vArr _ => "[Array]"
  | .vMap _ => "[object Map]"
  | .vObj _ => "[object Object]"
  | .vDate _ => "[Date]"
  | .vTagged _ _ => "[object Object]"

/-- Model of the JS `Number(·)` coercion (used only for the optional
`vicalIssueID` field, which no claim inspects; NaN is collapsed to 0). -/
def jsToNumber : Value → Int
  | .vNum n => n
  | .vBigInt n => n
  | .vBool b => if b then 1 else 0
  | .vNull => 0
  | .vDate (.valid ms) => ms
  | _ => 0

/-- Keep an optional value only when truthy (the source's
`if (data.k) { ... }` guard on optional fields). -/
def optTruthy : Option Value → Option Value
  | some v => if truthy v then some v else none
  | none => none

/-- `parseDate` (src/src/parser.ts:31): a native `Date` passes through, a
string goes through `new Date(string)` (the parameter `f`, total), a
number is epoch seconds and becomes `new Date(n * 1000)`; anything else
throws a `VICALParseError` naming the `typeof`. -/
def parseDate (f : String → JSDate) : Value → Except VICALParseError JSDate
  | .vDate d => .ok d
  | .vStr s => .ok (f s)
  | .vNum n => .ok (.valid (n * 1000))
  | v => .error ⟨"Invalid date format: " ++ typeofStr v, none⟩

/-- `parseBigInt` (src/src/parser.ts:47): a bigint passes through, a number
is widened via `BigInt(value)`, a byte string is folded most-significant
byte first via `result = (result << 8n) + byte` (here written `* 256`);
anything else throws. -/
def parseBigInt : Value → Except VICALParseError Int
  | .vBigInt n => .ok n
  | .vNum n => .ok n
  | .vBytes bs => .ok (bs.foldl (fun (r : Int) (b : Nat) => r * 256 + (b : Int)) 0)
  | v => .error ⟨"Invalid bigint format: " ++ typeofStr v, none⟩

/-- `parseBuffer` (src/src/parser.ts:69): Buffer/Uint8Array values pass
through as bytes; anything else throws. -/
def parseBuffer : Value → Except VICALParseError (List Nat)
  | .vBytes bs => .ok bs
  | v => .error ⟨"Invalid buffer format: " ++ typeofStr v, none⟩

/-- Element loop of `parseStringArray`: every element must be a string,
with an index-qualified error otherwise. -/
def parseStringsFrom (i : Nat) : List Value → Except VICALParseError (List String)
  | [] => .ok []
  | .vStr s :: rest =>
      match parseStringsFrom (i + 1) rest with
      | .ok ss => .ok (s :: ss)
      | .error e => .error e
  | v :: _ => .error ⟨"Expected string at index " ++ toString i ++ ", got " ++ typeofStr v, none⟩

/-- `parseStringArray` (src/src/parser.ts:82). -/
def parseStringArray : Value → Except VICALParseError (List String)
  | .vArr xs => parseStringsFrom 0 xs
  | v => .error ⟨"Expected array, got " ++ typeofStr v, none⟩

/-- Optional date field (`if (x.k !== undefined) parseDate(x.k)`). -/
def parseOptDate (f : String → JSDate) : Option Value → Except VICALParseError (Option JSDate)
  | none => .ok none
  | some v =>
      match parseDate f v with
      | .ok d => .ok (some d)
      | .error e => .error e

/-- Optional buffer field guarded by truthiness (`if (x.k) parseBuffer(x.k)`). -/
def parseOptBuffer : Option Value → Except VICALParseError (Option (List Nat))
  | none => .ok none
  | some v =>
      match parseBuffer v with
      | .ok bs => .ok (some bs)
      | .error e => .error e

/-- Optional string-array field guarded by truthiness. -/
def parseOptStringArray : Option Value → Except VICALParseError (Option (List String))
  | none => .ok none
  | some v =>
      match parseStringArray v with
      | .ok ss => .ok (some ss)
      | .error e => .error e

/-- `CertificateInfo` (src/src/types.ts): one trusted-root entry. -/
structure CertificateInfo where
  certificate : List Nat
  serialNumber : Int
  ski : List Nat
  docType : List String
  certificateProfile : Option (List String) := none
  issuingAuthority : Option String := none
  issuingCountry : Option String := none
  stateOrProvinceName : Option String := none
  issuer : Option (List Nat) := none
  subject : Option (List Nat) := none
  notBefore : Option JSDate := none
  notAfter : Option JSDate := none
  extensions : Option Value := none

/-- True exactly for the embedded JS null. -/
def isNullV : Value → Bool
  | .vNull => true
  | _ => false

/-- The TypeError a JS runtime throws when a property is read from null.
The first statement of `parseCertificateInfo` reads `data.certificate
(parser.ts:99), so a null certificate record aborts the parse with this
bare TypeError — it is not a `VICALParseError` and no try/catch guards
it. -/
def nullReadMsg : String := "TypeError: Cannot read properties of null (reading certificate)"

/-- `parseCertificateInfo` (src/src/parser.ts:97): the first property read
`data.certificate` throws a TypeError when the record is null (modelled
by the leading null test); otherwise four presence checks (truthiness
for certificate/ski/docType, strict `=== undefined` for serialNumber),
then mandatory coercions in source order, then the optional fields in
source order.  Its own validation failures are `VICALParseError`s. -/
def parseCertificateInfo (f : String → JSDate) (x : Value) : Except JSError CertificateInfo :=
  if isNullV x then .error (.thrown nullReadMsg)
  else
  if !truthyProp x "certificate" then
    .error (.vical ⟨"CertificateInfo missing required field: certificate", none⟩)
  else if (jsProp x "serialNumber").isNone then
    .error (.vical ⟨"CertificateInfo missing required field: serialNumber", none⟩)
  else if !truthyProp x "ski" then
    .error (.vical ⟨"CertificateInfo missing required field: ski", none⟩)
  else if !truthyProp x "docType" then
    .error (.vical ⟨"CertificateInfo missing required field: docType", none⟩)
  else
    match parseBuffer (propOr x "certificate") with
    | .error e => .error (.vical e)
    | .ok cert =>
    match parseBigInt (propOr x "serialNumber") with
    | .error e => .error (.vical e)
    | .ok sn =>
    match parseBuffer (propOr x "ski") with
    | .error e => .error (.vical e)
    | .ok skiBytes =>
    match parseStringArray (propOr x "docType") with
    | .error e => .error (.vical e)
    | .ok dts =>
    match parseOptStringArray (optTruthy (jsProp x "certificateProfile")) with
    | .error e => .error (.vical e)
    | .ok profile =>
    match parseOptBuffer (optTruthy (jsProp x "issuer")) with
    | .error e => .error (.vical e)
    | .ok issuerB =>
    match parseOptBuffer (optTruthy (jsProp x "subject")) with
    | .error e => .error (.vical e)
    | .ok subjectB =>
    match parseOptDate f (jsProp x "notBefore") with
    | .error e => .error (.vical e)
    | .ok nb =>
    match parseOptDate f (jsProp x "notAfter") with
    | .error e => .error (.vical e)
    | .ok na =>
      .ok { certificate := cert
            serialNumber := sn
            ski := skiBytes
            docType := dts
            certificateProfile := profile
            issuingAuthority := (jsProp x "issuingAuthority").map jsToString
            issuingCountry := (jsProp x "issuingCountry").map jsToString
            stateOrProvinceName := (jsProp x "stateOrProvinceName").map jsToString
            issuer := issuerB
            subject := subjectB
            notBefore := nb
            notAfter := na
            extensions := optTruthy (jsProp x "extensions") }

/-- The `for (const certInfoData of data.certificateInfos)` loop of
`parseVICALPayload`: each element is validated in order and the first
failure aborts. -/
def parseCertInfos (f : String → JSDate) : List Value → Except JSError (List CertificateInfo)
  | [] => .ok []
  | x :: xs =>
      match parseCertificateInfo f x with
      | .error e => .error e
      | .ok c =>
          match parseCertInfos f xs with
          | .error e => .error e
          | .ok cs => .ok (c :: cs)

/-- `VICAL` (src/src/types.ts): the validated payload. -/
structure VICAL where
  version : String
  vicalProvider : String
  date : JSDate
  vicalIssueID : Option Int := none
  nextUpdate : Option JSDate := none
  certificateInfos : List CertificateInfo
  extensions : Option Value := none

/-- `parseVICALPayload` (src/src/parser.ts:154): four truthiness presence
checks in order, then `String(·)` coercions of version/provider, the date
coercion, the optional fields, the `Array.isArray` check on
certificateInfos, and the per-record loop. -/
def parseVICALPayload (f : String → JSDate) (data : List (String × Value)) : Except JSError VICAL :=
  if !truthyField data "version" then
    .error (.vical ⟨"VICAL missing required field: version", none⟩)
  else if !truthyField data "vicalProvider" then
    .error (.vical ⟨"VICAL missing required field: vicalProvider", none⟩)
  else if !truthyField data "date" then
    .error (.vical ⟨"VICAL missing required field: date", none⟩)
  else if !truthyField data "certificateInfos" then
    .error (.vical ⟨"VICAL missing required field: certificateInfos", none⟩)
  else
    match parseDate f (fieldOr data "date") with
    | .error e => .error (.vical e)
    | .ok dateV =>
      match parseOptDate f (getField data "nextUpdate") with
      | .error e => .error (.vical e)
      | .ok nextUp =>
        match fieldOr data "certificateInfos" with
        | .vArr xs =>
            match parseCertInfos f xs with
            | .error e => .error e
            | .ok cis =>
                .ok { version := jsToString (fieldOr data "version")
                      vicalProvider := jsToString (fieldOr data "vicalProvider")
                      date := dateV
                      vicalIssueID := (getField data "vicalIssueID").map jsToNumber
                      nextUpdate := nextUp
                      certificateInfos := cis
                      extensions := optTruthy (getField data "extensions") }
        | _ => .error (.vical ⟨"certificateInfos must be an array", none⟩)

/-- `CoseSign1` (src/src/types.ts): the unwrapped signature envelope. -/
structure CoseSign1 where
  protectedHeader : List Nat
  unprotectedHeader : List (JSKey × Value)
  payload : List Nat
  signature : List Nat

/-- Model of `Object.entries(x)` for the runtime shapes that can reach the
unprotected-header coercion: plain objects yield their string-keyed
fields, arrays/buffers/strings yield index-keyed entries (indices are
stringified), cbor-x Tag objects yield their `tag`/`value` properties,
and primitives yield nothing. -/
def objEntries : Value → List (JSKey × Value)
  | .vObj fs => fs.map (fun p => (JSKey.str p.1, p.2))
  | .vArr xs => xs.enum.map (fun p => (JSKey.str (toString p.1), p.2))
  | .vBytes bs => bs.enum.map (fun p => (JSKey.str (toString p.1), Value.vNum p.2))
  | .vStr s => s.toList.enum.map (fun p => (JSKey.str (toString p.1), Value.vStr (String.singleton p.2)))
  | .vTagged t v => [(JSKey.str "tag", Value.vNum t), (JSKey.str "value", v)]
  | _ => []

/-- JS `Map.set`: replace the first entry with an equal key in place,
else append. -/
def mapSetK (m : List (JSKey × Value)) (k : JSKey) (v : Value) : List (JSKey × Value) :=
  match m with
  | [] => [(k, v)]
  | (k', v') :: rest => if k' == k then (k', v) :: rest else (k', v') :: mapSetK rest k v

/-- JS `new Map(entries)`: insert the entries in order. -/
def mapFromList (entries : List (JSKey × Value)) : List (JSKey × Value) :=
  entries.foldl (fun m p => mapSetK m p.1 p.2) []

/-- JS `Map.get`. -/
def lookupK (m : List (JSKey × Value)) (k : JSKey) : Option Value :=
  (m.find? (fun p => p.1 == k)).map (fun p => p.2)

/-- `parseCoseSign1` (src/src/parser.ts:202): a 4-element array is
destructured; the protected header, payload and signature are coerced to
bytes; the unprotected header is used as-is when it is a `Map` and
otherwise coerced via `new Map(Object.entries(unprotectedHeader || {}))`
(which produces string keys). -/
def parseCoseSign1 (arr : List Value) : Except VICALParseError CoseSign1 :=
  match arr with
  | [p, u, pay, sig] =>
      match parseBuffer p with
      | .error e => .error e
      | .ok ph =>
          let uh : List (JSKey × Value) :=
            match u with
            | .vMap entries => entries
            | _ => mapFromList (if truthy u then objEntries u else [])
          match parseBuffer pay with
          | .error e => .error e
          | .ok pl =>
              match parseBuffer sig with
              | .error e => .error e
              | .ok sg => .ok ⟨ph, uh, pl, sg⟩
  | _ => .error ⟨"Invalid COSE_Sign1 structure: expected array of 4 elements", none⟩

/-- The `tagged.tag === 18 && Array.isArray(tagged.value)` test applied to
a non-array object in `parseVICAL` (src/src/parser.ts:289-294): the
object's `tag` property must be the number 18 (strict equality, so a
bigint 18 does not match) and its `value` property an array. -/
def tagCheck (v : Value) : Except VICALParseError (List Value) :=
  match jsProp v "tag", jsProp v "value" with
  | some (.vNum 18), some (.vArr xs) => .ok xs
  | _, _ => .error ⟨"Invalid COSE_Sign1: missing tag 18", none⟩

/-- Envelope recognition inside `parseVICAL` (src/src/parser.ts:284-297):
a bare array is taken directly; otherwise an object whose `tag` property
is the number 18 and whose `value` property is an array is unwrapped;
any other object fails with the missing-tag error, and any primitive
fails with the format error naming its `typeof`. -/
def unwrapEnvelope : Value → Except VICALParseError (List Value)
  | .vArr xs => .ok xs
  | .vNull => .error ⟨"Invalid COSE_Sign1 format: object", none⟩
  | .vBool _ => .error ⟨"Invalid COSE_Sign1 format: boolean", none⟩
  | .vNum _ => .error ⟨"Invalid COSE_Sign1 format: number", none⟩
  | .vBigInt _ => .error ⟨"Invalid COSE_Sign1 format: bigint", none⟩
  | .vStr _ => .error ⟨"Invalid COSE_Sign1 format: string", none⟩
  | .vBytes bs => tagCheck (.vBytes bs)
  | .vMap entries => tagCheck (.vMap entries)
  | .vObj fs => tagCheck (.vObj fs)
  | .vDate d => tagCheck (.vDate d)
  | .vTagged t x => tagCheck (.vTagged t x)

/-- `extractAlgorithm` (src/src/parser.ts:222): decode the protected-header
bytes (NOT wrapped in try/catch — a decode failure escapes as the
library's own error), then read label 1 from a `Map` result or property
"1" from an object-like result; `undefined` yields the missing-algorithm
parse error.  The value found is returned without any runtime check.
`algLookup` is the label lookup on the decoded header value. -/
def algLookup : Value → Option Value
  | .vMap entries => lookupK entries (.int 1)
  | .vObj fs => getField fs "1"
  | .vArr xs => xs.get? 1
  | .vBytes bs => (bs.get? 1).map Value.vNum
  | _ => none

def extractAlgorithm (dec : List Nat → Except String Value) (ph : List Nat) : Except JSError Value :=
  match dec ph with
  | .error e => .error (.thrown e)
  | .ok decoded =>
      match algLookup decoded with
      | none => .error (.vical ⟨"Algorithm not found in protected header", none⟩)
      | some a => .ok a

/-- `extractSignerCertificate` (src/src/parser.ts:243): read label 33
(X5CHAIN) from the unprotected-header map; a falsy or absent value yields
nothing, a byte string is the single end-entity certificate, a non-empty
array contributes its first element when byte-like, and every other
shape yields nothing without failing. -/
def extractSignerCertificate (uh : List (JSKey × Value)) : Option (List Nat) :=
  match lookupK uh (.int 33) with
  | none => none
  | some x5 =>
      if !truthy x5 then none
      else
        match x5 with
        | .vBytes bs => some bs
        | .vArr (first :: _) =>
            match first with
            | .vBytes bs => some bs
            | _ => none
        | _ => none

/-- `SignedVICAL` (src/src/types.ts): the top-level parse result.  The
algorithm is stored as the raw decoded value, since the source performs
no runtime check on it. -/
structure SignedVICAL where
  coseSign1 : CoseSign1
  vical : VICAL
  algorithm : Value
  signerCertificate : Option (List Nat) := none
  rawBytes : List Nat

/-- The string-keyed fields visible through the
`vicalData as Record<string, unknown>` cast: plain objects expose their
fields; property access on any other object-like value yields
`undefined` for every field name the payload validator reads. -/
def objFields : Value → List (String × Value)
  | .vObj fs => fs
  | _ => []

/-- `parseVICAL` (src/src/parser.ts:272): decode the raw bytes (wrapped:
failures become a `VICALParseError` with the decode failure as cause),
unwrap the envelope, parse the COSE_Sign1 structure, extract the
algorithm (where a decode failure escapes unwrapped) and the optional
signer certificate, decode the payload (wrapped), require an object, and
validate the payload. -/
def parseVICAL (dec : List Nat → Except String Value) (f : String → JSDate)
    (input : List Nat) : Except JSError SignedVICAL :=
  match dec input with
  | .error e => .error (.vical ⟨"Failed to decode CBOR", some e⟩)
  | .ok decoded =>
      match unwrapEnvelope decoded with
      | .error e => .error (.vical e)
      | .ok coseArray =>
          match parseCoseSign1 coseArray with
          | .error e => .error (.vical e)
          | .ok cs =>
              match extractAlgorithm dec cs.protectedHeader with
              | .error e => .error e
              | .ok alg =>
                  let signerCert := extractSignerCertificate cs.unprotectedHeader
                  match dec cs.payload with
                  | .error e => .error (.vical ⟨"Failed to decode VICAL payload", some e⟩)
                  | .ok vicalData =>
                      if typeofStr vicalData == "object" && !isNullV vicalData then
                        match parseVICALPayload f (objFields vicalData) with
                        | .error e => .error e
                        | .ok vc => .ok ⟨cs, vc, alg, signerCert, input⟩
                      else .error (.vical ⟨"Invalid VICAL payload: expected object", none⟩)

/-- The mDL document type constant (src/src/types.ts). -/
def MDL_DOCTYPE : String := "org.iso.18013.5.1.mDL"

/-- `filterByDocType` (src/src/parser.ts:353). -/
def filterByDocType (vical : VICAL) (docType : String) : List CertificateInfo :=
  vical.certificateInfos.filter (fun cert => cert.docType.contains docType)

/-- `filterMDLCertificates` (src/src/parser.ts:360). -/
def filterMDLCertificates (vical : VICAL) : List CertificateInfo :=
  filterByDocType vical MDL_DOCTYPE

/-- `findByCountry` (src/src/parser.ts:367): strict `===` comparison, so an
absent issuingCountry never matches. -/
def findByCountry (vical : VICAL) (countryCode : String) : Option CertificateInfo :=
  vical.certificateInfos.find? (fun cert => cert.issuingCountry == some countryCode)

/-- `findBySKI` (src/src/parser.ts:374): `Buffer.equals` is byte-for-byte
equality. -/
def findBySKI (vical : VICAL) (ski : List Nat) : Option CertificateInfo :=
  vical.certificateInfos.find? (fun cert => cert.ski == ski)

/-- JS `Map.set` for the string-keyed trust-anchor map. -/
def mapSetS (m : List (String × CertificateInfo)) (k : String) (v : CertificateInfo) :
    List (String × CertificateInfo) :=
  match m with
  | [] => [(k, v)]
  | (k', v') :: rest => if k' == k then (k', v) :: rest else (k', v') :: mapSetS rest k v

/-- JS `Map.get` for the trust-anchor map. -/
def mapLookup (m : List (String × CertificateInfo)) (k : String) : Option CertificateInfo :=
  (m.find? (fun p => p.1 == k)).map (fun p => p.2)

/-- One iteration of the `buildTrustAnchors` loop: insert the certificate
under its issuing country when it lists the document type and the
country is truthy (present and non-empty). -/
def trustStep (docType : String) (anchors : List (String × CertificateInfo))
    (cert : CertificateInfo) : List (String × CertificateInfo) :=
  match cert.issuingCountry with
  | some s => if cert.docType.contains docType && s != "" then mapSetS anchors s cert else anchors
  | none => anchors

/-- `buildTrustAnchors` (src/src/parser.ts:381). -/
def buildTrustAnchors (vical : VICAL) (docType : String := MDL_DOCTYPE) :
    List (String × CertificateInfo) :=
  vical.certificateInfos.foldl (trustStep docType) []

/-- Decidable success test on a parse outcome. -/
def exceptIsOk {ε α : Type} : Except ε α → Bool
  | .ok _ => true
  | .error _ => false

/-! ### Helper lemmas and fixtures -/

/-- Spec-side meaning of a big-endian unsigned integer: most-significant
byte first, i.e. a byte contributes its value times 256 to the power of
the number of bytes after it. -/
def bigEndianVal : List Nat → Int
  | [] => 0
  | b :: rest => (b : Int) * 256 ^ rest.length + bigEndianVal rest

lemma foldl_mul256 (bs : List Nat) (acc : Int) :
    bs.foldl (fun (r : Int) (b : Nat) => r * 256 + (b : Int)) acc =
      acc * 256 ^ bs.length + bigEndianVal bs := by
  induction bs generalizing acc with
  | nil => simp [bigEndianVal]
  | cons b rest ih =>
      simp only [List.foldl_cons, bigEndianVal, List.length_cons, ih]
      ring

lemma find?_ski_some (l : List CertificateInfo) (s : List Nat) (c : CertificateInfo)
    (h : l.find? (fun c => c.ski == s) = some c) :
    c.ski = s ∧ ∃ l1 l2, l = l1 ++ c :: l2 ∧ ∀ c' ∈ l1, c'.ski ≠ s := by
  induction l with
  | nil => simp [List.find?] at h
  | cons a t ih =>
      rw [List.find?_cons] at h
      by_cases ha : a.ski = s
      · simp only [ha, beq_self_eq_true, if_pos] at h
        obtain rfl : a = c := by injection h
        exact ⟨ha, [], t, rfl, by simp⟩
      · have hb : (a.ski == s) = false := beq_eq_false_iff_ne.mpr ha
        rw [hb] at h
        simp only [Bool.false_eq_true, if_false] at h
        obtain ⟨hski, l1, l2, ht, hl1⟩ := ih h
        refine ⟨hski, a :: l1, l2, by simp [ht], ?_⟩
        intro c' hc'
        rcases List.mem_cons.mp hc' with rfl | hmem
        · exact ha
        · exact hl1 c' hmem

/-- Certificates eligible for the trust map: they list the document type
and carry a present, non-empty issuing country. -/
def eligibleCert (d : String) (c : CertificateInfo) : Bool :=
  c.docType.contains d &&
    (match c.issuingCountry with
     | some s => s != ""
     | none => false)

lemma trustStep_eq (d : String) (m : List (String × CertificateInfo)) (c : CertificateInfo) :
    trustStep d m c =
      if eligibleCert d c then mapSetS m (c.issuingCountry.getD "") c else m := by
  unfold trustStep eligibleCert
  cases h : c.issuingCountry with
  | none => simp
  | some s => by_cases hd : c.docType.contains d <;> simp [hd]

lemma mapLookup_cons (a : String) (b : CertificateInfo)
    (rest : List (String × CertificateInfo)) (j : String) :
    mapLookup ((a, b) :: rest) j = if a = j then some b else mapLookup rest j := by
  unfold mapLookup
  rw [List.find?_cons]
  by_cases h : a = j
  · subst h
    simp
  · have hb : (a == j) = false := beq_eq_false_iff_ne.mpr h
    simp [hb, h]

lemma mapLookup_mapSetS (m : List (String × CertificateInfo)) (k : String)
    (c : CertificateInfo) (j : String) :
    mapLookup (mapSetS m k c) j = if j = k then some c else mapLookup m j := by
  induction m with
  | nil =>
      show mapLookup [(k, c)] j = _
      rw [mapLookup_cons]
      by_cases h : j = k
      · simp [h]
      · have h2 : ¬ k = j := fun hk => h hk.symm
        simp [h, h2]
  | cons p rest ih =>
      obtain ⟨a, b⟩ := p
      by_cases hak : a = k
      · subst hak
        have hb : (a == a) = true := beq_self_eq_true a
        simp only [mapSetS, hb, if_pos]
        rw [mapLookup_cons, mapLookup_cons]
        by_cases hj : a = j
        · subst hj
          simp
        · have hj2 : ¬ j = a := fun hh => hj hh.symm
          simp [hj, hj2]
      · have hb : (a == k) = false := beq_eq_false_iff_ne.mpr hak
        simp only [mapSetS, hb, Bool.false_eq_true, if_false]
        rw [mapLookup_cons, mapLookup_cons]
        by_cases hj : a = j
        · subst hj
          have hjk : ¬ a = k := hak
          simp [fun hk : a = k => hak hk]
        · simp [hj, ih]

/-- First-wins choice on options (JS-style fallback). -/
def optOr {α : Type} : Option α → Option α → Option α
  | some x, _ => some x
  | none, b => b

lemma optOr_none_right {α : Type} (a : Option α) : optOr a none = a := by
  cases a <;> rfl

lemma optOr_assoc {α : Type} (a b c : Option α) :
    optOr (optOr a b) c = optOr a (optOr b c) := by
  cases a <;> rfl

lemma find?_append_opt {α : Type} (l₁ l₂ : List α) (p : α → Bool) :
    (l₁ ++ l₂).find? p = optOr (l₁.find? p) (l₂.find? p) := by
  induction l₁ with
  | nil => simp [optOr]
  | cons a t ih =>
      by_cases h : p a <;> simp [List.find?_cons, h, ih, optOr]

lemma mapLookup_fold_trustStep (d : String) (l : List CertificateInfo)
    (m : List (String × CertificateInfo)) (j : String) :
    mapLookup (l.foldl (trustStep d) m) j =
      optOr ((l.filter (eligibleCert d)).reverse.find? (fun c => c.issuingCountry == some j))
        (mapLookup m j) := by
  induction l generalizing m with
  | nil => simp [optOr]
  | cons c t ih =>
      simp only [List.foldl_cons]
      rw [ih]
      by_cases he : eligibleCert d c
      · have hstep : trustStep d m c = mapSetS m (c.issuingCountry.getD "") c := by
          rw [trustStep_eq, if_pos he]
        obtain ⟨s, hs⟩ : ∃ s, c.issuingCountry = some s := by
          unfold eligibleCert at he
          cases hc : c.issuingCountry with
          | none => rw [hc] at he; simp at he
          | some s => exact ⟨s, rfl⟩
        rw [hstep, hs]
        simp only [Option.getD_some]
        rw [List.filter_cons, if_pos he, List.reverse_cons, find?_append_opt, optOr_assoc]
        congr 1
        rw [mapLookup_mapSetS]
        by_cases hj : c.issuingCountry == some j
        · have hsj : s = j := by
            rw [hs] at hj
            simpa using hj
          subst hsj
          simp [List.find?, hj, optOr, hs]
        · have hsj : ¬ j = s := by
            intro hcon
            apply hj
            rw [hs, hcon]
            simp [beq_iff_eq] at *
          simp [List.find?, hj, optOr, hsj]
      · have hstep : trustStep d m c = m := by
          rw [trustStep_eq, if_neg he]
        rw [hstep, List.filter_cons, if_neg he]

lemma keys_mapSetS (m : List (String × CertificateInfo)) (k : String) (c : CertificateInfo) :
    (mapSetS m k c).map Prod.fst =
      if m.any (fun p => p.1 == k) then m.map Prod.fst else m.map Prod.fst ++ [k] := by
  induction m with
  | nil => simp [mapSetS]
  | cons p rest ih =>
      obtain ⟨k', c'⟩ := p
      by_cases hk : k' = k
      · subst hk
        simp [mapSetS, List.any_cons]
      · have h1 : (k' == k) = false := beq_eq_false_iff_ne.mpr hk
        simp only [mapSetS, h1, Bool.false_eq_true, if_false, List.map_cons, List.any_cons,
          Bool.false_or, ih]
        by_cases ha : rest.any (fun p => p.1 == k) <;> simp [ha]

lemma nodup_keys_mapSetS (m : List (String × CertificateInfo)) (k : String)
    (c : CertificateInfo) (h : (m.map Prod.fst).Nodup) :
    ((mapSetS m k c).map Prod.fst).Nodup := by
  rw [keys_mapSetS]
  by_cases ha : m.any (fun p => p.1 == k)
  · simpa [ha] using h
  · have hnot : k ∉ m.map Prod.fst := by
      intro hmem
      obtain ⟨p, hp, hpk⟩ := List.mem_map.mp hmem
      have : m.any (fun p => p.1 == k) = true :=
        List.any_eq_true.mpr ⟨p, hp, by simp [hpk]⟩
      simp [this] at ha
    simp only [ha, Bool.false_eq_true, if_false]
    rw [List.nodup_append]
    refine ⟨h, List.nodup_singleton k, ?_⟩
    intro a hmem hsing
    rcases List.mem_singleton.mp hsing with rfl
    exact hnot hmem

lemma nodup_keys_fold_trustStep (d : String) (l : List CertificateInfo)
    (m : List (String × CertificateInfo)) (h : (m.map Prod.fst).Nodup) :
    ((l.foldl (trustStep d) m).map Prod.fst).Nodup := by
  induction l generalizing m with
  | nil => exact h
  | cons c t ih =>
      simp only [List.foldl_cons]
      apply ih
      rw [trustStep_eq]
      by_cases he : eligibleCert d c
      · rw [if_pos he]
        exact nodup_keys_mapSetS _ _ _ h
      · rwa [if_neg he]

/-- A mock certificate for jurisdiction "KR", first in list order. -/
def certKR1 : CertificateInfo :=
  { certificate := [1], serialNumber := 1, ski := [10], docType := [MDL_DOCTYPE],
    issuingCountry := some "KR" }

/-- A mock certificate for jurisdiction "KR", second in list order. -/
def certKR2 : CertificateInfo :=
  { certificate := [2], serialNumber := 2, ski := [11], docType := [MDL_DOCTYPE],
    issuingCountry := some "KR" }

/-- A validated list holding the two "KR" certificates in order. -/
def demoKRList : VICAL :=
  { version := "1.0", vicalProvider := "p", date := .valid 0,
    certificateInfos := [certKR1, certKR2] }

/-! ### Claim theorems -/

/-- Claim C5: serial-number coercion maps a native arbitrary-precision
integer to itself, widens a machine integer, and interprets a byte
sequence as a big-endian unsigned integer (most-significant byte first);
in particular the byte sequence 0x01 0x00 yields the integer 256. -/
theorem C5_serial_number_coercion :
    ∀ (n : Int) (bs : List Nat),
      parseBigInt (.vBigInt n) = .ok n ∧
      parseBigInt (.vNum n) = .ok n ∧
      parseBigInt (.vBytes bs) = .ok (bigEndianVal bs) ∧
      parseBigInt (.vBytes [1, 0]) = .ok 256 := by
  intro n bs
  refine ⟨rfl, rfl, ?_, rfl⟩
  simp [parseBigInt, foldl_mul256]

/-- Claim C7: `findBySKI` returns the first certificate in list order whose
subject-key-identifier bytes equal the given bytes byte-for-byte, and
returns nothing exactly when no certificate's ski matches. -/
theorem C7_find_by_ski :
    ∀ (v : VICAL) (s : List Nat),
      (∀ c, findBySKI v s = some c →
        c.ski = s ∧ ∃ l1 l2, v.certificateInfos = l1 ++ c :: l2 ∧ ∀ c' ∈ l1, c'.ski ≠ s) ∧
      (findBySKI v s = none ↔ ∀ c ∈ v.certificateInfos, c.ski ≠ s) := by
  intro v s
  constructor
  · intro c h
    exact find?_ski_some v.certificateInfos s c h
  · unfold findBySKI
    rw [List.find?_eq_none]
    constructor
    · intro h c hc
      exact beq_eq_false_iff_ne.mp (Bool.not_eq_true _ ▸ by simpa using h c hc)
    · intro h c hc
      simp [beq_eq_false_iff_ne.mpr (h c hc)]

/-- Witness for C7 at a concrete list: the matching record is returned for
an ski present in the list, and `none` comes back for an absent one. -/
theorem C7_find_by_ski_witness :
    certKR2.ski = [11] ∧
    (∃ l1 l2, demoKRList.certificateInfos = l1 ++ certKR2 :: l2 ∧ ∀ c' ∈ l1, c'.ski ≠ [11]) ∧
    findBySKI demoKRList [99] = none := by
  have h1 := ((C7_find_by_ski demoKRList [11]).1 certKR2 (by rfl))
  have h2 := (C7_find_by_ski demoKRList [99]).2.mpr (by
    intro c hc
    simp only [demoKRList, List.mem_cons, List.not_mem_nil, or_false] at hc
    rcases hc with rfl | rfl <;> simp [certKR1, certKR2])
  exact ⟨h1.1, h1.2, h2⟩

/-- Claim C6: `buildTrustAnchors` maps a jurisdiction to a certificate
exactly when that certificate is the last, in list order, that supports
the document type and has that non-empty issuing jurisdiction (duplicates
are overwritten, keys stay unique); in particular two "KR" records that
both support the mDL document type leave exactly one "KR" entry, equal to
the later record. -/
theorem C6_build_trust_anchors :
    (∀ (v : VICAL) (d j : String),
      ((buildTrustAnchors v d).map Prod.fst).Nodup ∧
      mapLookup (buildTrustAnchors v d) j =
        (v.certificateInfos.filter (eligibleCert d)).reverse.find?
          (fun c => c.issuingCountry == some j)) ∧
    buildTrustAnchors demoKRList MDL_DOCTYPE = [("KR", certKR2)] := by
  refine ⟨?_, rfl⟩
  intro v d j
  constructor
  · exact nodup_keys_fold_trustStep d v.certificateInfos [] (by simp)
  · unfold buildTrustAnchors
    rw [mapLookup_fold_trustStep]
    simp [mapLookup, List.find?, optOr_none_right]

lemma parseCoseSign1_len (arr : List Value) (cs : CoseSign1)
    (h : parseCoseSign1 arr = .ok cs) : arr.length = 4 := by
  unfold parseCoseSign1 at h
  split at h
  · simp
  · simp at h

lemma parseCoseSign1_not4 (arr : List Value) (h : arr.length ≠ 4) :
    parseCoseSign1 arr =
      .error ⟨"Invalid COSE_Sign1 structure: expected array of 4 elements", none⟩ := by
  unfold parseCoseSign1
  split
  · simp at h
  · rfl

lemma tagCheck_ok (v : Value) (arr : List Value) (h : tagCheck v = .ok arr) :
    jsProp v "tag" = some (.vNum 18) ∧ jsProp v "value" = some (.vArr arr) := by
  unfold tagCheck at h
  split at h
  · next xs heq1 heq2 =>
      injection h with h
      rw [← h]
      exact ⟨heq1, heq2⟩
  · simp at h

lemma tagCheck_err (v : Value)
    (h : ¬ (jsProp v "tag" = some (.vNum 18) ∧ ∃ xs, jsProp v "value" = some (.vArr xs))) :
    tagCheck v = .error ⟨"Invalid COSE_Sign1: missing tag 18", none⟩ := by
  unfold tagCheck
  split
  · next xs heq1 heq2 => exact absurd ⟨heq1, xs, heq2⟩ h
  · rfl

lemma unwrapEnvelope_ok (v : Value) (arr : List Value) (h : unwrapEnvelope v = .ok arr) :
    v = .vArr arr ∨
      (jsProp v "tag" = some (.vNum 18) ∧ jsProp v "value" = some (.vArr arr)) := by
  cases v with
  | vArr xs =>
      left
      unfold unwrapEnvelope at h
      injection h with h
      rw [h]
  | vNull => exact absurd h (by simp [unwrapEnvelope])
  | vBool b => exact absurd h (by simp [unwrapEnvelope])
  | vNum n => exact absurd h (by simp [unwrapEnvelope])
  | vBigInt n => exact absurd h (by simp [unwrapEnvelope])
  | vStr s => exact absurd h (by simp [unwrapEnvelope])
  | vBytes bs =>
      right
      unfold unwrapEnvelope at h
      exact tagCheck_ok _ _ h
  | vMap entries =>
      right
      unfold unwrapEnvelope at h
      exact tagCheck_ok _ _ h
  | vObj fs =>
      right
      unfold unwrapEnvelope at h
      exact tagCheck_ok _ _ h
  | vDate d =>
      right
      unfold unwrapEnvelope at h
      exact tagCheck_ok _ _ h
  | vTagged t x =>
      right
      unfold unwrapEnvelope at h
      exact tagCheck_ok _ _ h

/-- Claim C3: the envelope is unwrapped only from a bare 4-element sequence
or a tag-18 value wrapping a 4-element sequence; a sequence of any other
length, a wrong tag, or tag 18 wrapping a non-sequence each fail with the
parse error describing the envelope-shape violation. -/
theorem C3_envelope_shape :
    ∀ (v : Value),
      (∀ cs, (unwrapEnvelope v).bind parseCoseSign1 = .ok cs →
        ∃ xs, xs.length = 4 ∧
          (v = .vArr xs ∨
            (jsProp v "tag" = some (.vNum 18) ∧ jsProp v "value" = some (.vArr xs)))) ∧
      (∀ xs, v = .vArr xs → xs.length ≠ 4 →
        (unwrapEnvelope v).bind parseCoseSign1 =
          .error ⟨"Invalid COSE_Sign1 structure: expected array of 4 elements", none⟩) ∧
      (∀ t x, v = .vTagged t x → t ≠ 18 →
        (unwrapEnvelope v).bind parseCoseSign1 =
          .error ⟨"Invalid COSE_Sign1: missing tag 18", none⟩) ∧
      (∀ x, v = .vTagged 18 x → (∀ xs, x ≠ .vArr xs) →
        (unwrapEnvelope v).bind parseCoseSign1 =
          .error ⟨"Invalid COSE_Sign1: missing tag 18", none⟩) ∧
      (∀ xs, v = .vTagged 18 (.vArr xs) → xs.length ≠ 4 →
        (unwrapEnvelope v).bind parseCoseSign1 =
          .error ⟨"Invalid COSE_Sign1 structure: expected array of 4 elements", none⟩) := by
  intro v
  refine ⟨?_, ?_, ?_, ?_, ?_⟩
  · intro cs h
    cases hu : unwrapEnvelope v with
    | error e => rw [hu] at h; simp [Except.bind] at h
    | ok arr =>
        rw [hu] at h
        simp only [Except.bind] at h
        exact ⟨arr, parseCoseSign1_len arr cs h, unwrapEnvelope_ok v arr hu⟩
  · intro xs hv hlen
    subst hv
    show ((Except.ok xs : Except VICALParseError (List Value)).bind parseCoseSign1) = _
    simp only [Except.bind]
    exact parseCoseSign1_not4 xs hlen
  · intro t x hv ht
    subst hv
    have herr : unwrapEnvelope (.vTagged t x) =
        .error ⟨"Invalid COSE_Sign1: missing tag 18", none⟩ := by
      unfold unwrapEnvelope
      apply tagCheck_err
      rintro ⟨h1, -⟩
      simp [jsProp] at h1
      exact ht h1
    rw [herr]
    rfl
  · intro x hv hx
    subst hv
    have herr : unwrapEnvelope (.vTagged 18 x) =
        .error ⟨"Invalid COSE_Sign1: missing tag 18", none⟩ := by
      unfold unwrapEnvelope
      apply tagCheck_err
      rintro ⟨-, xs, h2⟩
      simp [jsProp] at h2
      exact hx xs h2
    rw [herr]
    rfl
  · intro xs hv hlen
    subst hv
    have hok : unwrapEnvelope (.vTagged 18 (.vArr xs)) = .ok xs := by
      unfold unwrapEnvelope tagCheck
      simp [jsProp]
    rw [hok]
    simp only [Except.bind]
    exact parseCoseSign1_not4 xs hlen

/-- Witness for C3 at concrete envelopes: a successful bare 4-element
sequence, a 1-element bare sequence, a wrong tag, and a tag-18 wrapper
around an empty sequence. -/
theorem C3_envelope_shape_witness :
    (∃ xs, xs.length = 4 ∧
      ((Value.vArr [.vBytes [1], .vMap [], .vBytes [2], .vBytes [3]]) = .vArr xs ∨
        (jsProp (Value.vArr [.vBytes [1], .vMap [], .vBytes [2], .vBytes [3]]) "tag" =
            some (.vNum 18) ∧
          jsProp (Value.vArr [.vBytes [1], .vMap [], .vBytes [2], .vBytes [3]]) "value" =
            some (.vArr xs)))) ∧
    (unwrapEnvelope (.vArr [.vNull])).bind parseCoseSign1 =
      .error ⟨"Invalid COSE_Sign1 structure: expected array of 4 elements", none⟩ ∧
    (unwrapEnvelope (.vTagged 99 (.vArr []))).bind parseCoseSign1 =
      .error ⟨"Invalid COSE_Sign1: missing tag 18", none⟩ ∧
    (unwrapEnvelope (.vTagged 18 (.vArr []))).bind parseCoseSign1 =
      .error ⟨"Invalid COSE_Sign1 structure: expected array of 4 elements", none⟩ := by
  refine ⟨?_, ?_, ?_, ?_⟩
  · exact (C3_envelope_shape (.vArr [.vBytes [1], .vMap [], .vBytes [2], .vBytes [3]])).1
      ⟨[1], [], [2], [3]⟩ (by rfl)
  · exact (C3_envelope_shape (.vArr [.vNull])).2.1 [.vNull] rfl (by decide)
  · exact (C3_envelope_shape (.vTagged 99 (.vArr []))).2.2.1 99 (.vArr []) rfl (by decide)
  · exact (C3_envelope_shape (.vTagged 18 (.vArr []))).2.2.2.2 [] rfl (by decide)

lemma truthyField_some (data : List (String × Value)) (k : String)
    (h : truthyField data k = true) :
    ∃ v, getField data k = some v ∧ truthy v = true := by
  unfold truthyField at h
  cases hg : getField data k with
  | none => rw [hg] at h; simp at h
  | some v => rw [hg] at h; exact ⟨v, rfl, h⟩

lemma fieldOr_eq (data : List (String × Value)) (k : String) (v : Value)
    (h : getField data k = some v) : fieldOr data k = v := by
  unfold fieldOr
  rw [h]
  rfl

lemma payload_ok_inv (f : String → JSDate) (data : List (String × Value)) (r : VICAL)
    (h : parseVICALPayload f data = .ok r) :
    truthyField data "version" = true ∧
    truthyField data "vicalProvider" = true ∧
    truthyField data "date" = true ∧
    truthyField data "certificateInfos" = true ∧
    parseDate f (fieldOr data "date") = .ok r.date ∧
    parseOptDate f (getField data "nextUpdate") = .ok r.nextUpdate ∧
    ∃ xs, getField data "certificateInfos" = some (.vArr xs) ∧
      parseCertInfos f xs = .ok r.certificateInfos := by
  unfold parseVICALPayload at h
  split at h
  · simp at h
  next hv1 =>
  split at h
  · simp at h
  next hv2 =>
  split at h
  · simp at h
  next hv3 =>
  split at h
  · simp at h
  next hv4 =>
  split at h
  · simp at h
  next dateV hd =>
  split at h
  · simp at h
  next nextUp hnu =>
  split at h
  case _ xs hci =>
    split at h
    · simp at h
    next cis hcis =>
      have hv1' : truthyField data "version" = true := by simpa using hv1
      have hv2' : truthyField data "vicalProvider" = true := by simpa using hv2
      have hv3' : truthyField data "date" = true := by simpa using hv3
      have hv4' : truthyField data "certificateInfos" = true := by simpa using hv4
      obtain ⟨civ, hciv, -⟩ := truthyField_some data "certificateInfos" hv4'
      have hfo : fieldOr data "certificateInfos" = civ := fieldOr_eq _ _ _ hciv
      have hciv' : getField data "certificateInfos" = some (.vArr xs) := by
        rw [hciv]
        rw [hfo] at hci
        rw [hci]
      injection h with h
      subst h
      exact ⟨hv1', hv2', hv3', hv4', hd, hnu, xs, hciv', hcis⟩
  case _ hne =>
    simp at h

lemma parseCertInfos_ok (f : String → JSDate) (xs : List Value) (l : List CertificateInfo)
    (h : parseCertInfos f xs = .ok l) :
    l.length = xs.length ∧
    ∀ i (h1 : i < xs.length) (h2 : i < l.length),
      parseCertificateInfo f (xs.get ⟨i, h1⟩) = .ok (l.get ⟨i, h2⟩) := by
  induction xs generalizing l with
  | nil =>
      unfold parseCertInfos at h
      injection h with h
      subst h
      exact ⟨rfl, by intro i h1 h2; exact absurd h1 (by simp)⟩
  | cons x t ih =>
      unfold parseCertInfos at h
      split at h
      · simp at h
      next c hc =>
      split at h
      · simp at h
      next cs hcs =>
      injection h with h
      subst h
      obtain ⟨hlen, hidx⟩ := ih cs hcs
      refine ⟨by simp [hlen], ?_⟩
      intro i h1 h2
      cases i with
      | zero => simpa using hc
      | succ i =>
          have h1' : i < t.length := by simpa using h1
          have h2' : i < cs.length := by simpa using h2
          simpa using hidx i h1' h2'

lemma parseCertInfos_ok_mem (f : String → JSDate) (xs : List Value) (l : List CertificateInfo)
    (h : parseCertInfos f xs = .ok l) (y : Value) (hy : y ∈ xs) :
    ∃ c, parseCertificateInfo f y = .ok c := by
  induction xs generalizing l with
  | nil => simp at hy
  | cons x t ih =>
      unfold parseCertInfos at h
      split at h
      · simp at h
      next c hc =>
      split at h
      · simp at h
      next cs hcs =>
      rcases List.mem_cons.mp hy with rfl | hmem
      · exact ⟨c, hc⟩
      · exact ih cs hcs hmem

lemma certInfo_ok_inv (f : String → JSDate) (x : Value) (c : CertificateInfo)
    (h : parseCertificateInfo f x = .ok c) :
    truthyProp x "certificate" = true ∧
    jsProp x "serialNumber" ≠ none ∧
    truthyProp x "ski" = true ∧
    truthyProp x "docType" = true := by
  unfold parseCertificateInfo at h
  split at h
  · simp at h
  next h0 =>
  split at h
  · simp at h
  next h1 =>
  split at h
  · simp at h
  next h2 =>
  split at h
  · simp at h
  next h3 =>
  split at h
  · simp at h
  next h4 =>
  exact ⟨by simpa using h1, by simpa using h2, by simpa using h3, by simpa using h4⟩

/-- Claim C2: whenever the payload parse succeeds, the validated list has
exactly as many Certificate records as the encoded certificateInfos
sequence has elements, and the record at every index is the parse of the
encoded element at the same index (order preserved). -/
theorem C2_count_and_order :
    ∀ (f : String → JSDate) (data : List (String × Value)) (r : VICAL),
      parseVICALPayload f data = .ok r →
      ∃ xs, getField data "certificateInfos" = some (.vArr xs) ∧
        r.certificateInfos.length = xs.length ∧
        ∀ i (h1 : i < xs.length) (h2 : i < r.certificateInfos.length),
          parseCertificateInfo f (xs.get ⟨i, h1⟩) = .ok (r.certificateInfos.get ⟨i, h2⟩) := by
  intro f data r h
  obtain ⟨-, -, -, -, -, -, xs, hxs, hcis⟩ := payload_ok_inv f data r h
  obtain ⟨hlen, hidx⟩ := parseCertInfos_ok f xs _ hcis
  exact ⟨xs, hxs, hlen, hidx⟩

/-- The model stand-in for `new Date(string)` used by concrete witnesses:
every string yields the Invalid Date value (as a real JS runtime does on
non-RFC-3339 input such as the strings below). -/
def strDate0 : String → JSDate := fun _ => .invalid

/-- A well-formed encoded certificate record. -/
def certObjW : Value :=
  .vObj [("certificate", .vBytes [48]), ("serialNumber", .vNum 7),
         ("ski", .vBytes [1, 2]), ("docType", .vArr [.vStr MDL_DOCTYPE])]

/-- Its validated form. -/
def certW : CertificateInfo :=
  { certificate := [48], serialNumber := 7, ski := [1, 2], docType := [MDL_DOCTYPE] }

/-- A well-formed payload mapping with two certificate records. -/
def dataW : List (String × Value) :=
  [("version", .vStr "1.0"), ("vicalProvider", .vStr "Provider"),
   ("date", .vNum 5), ("certificateInfos", .vArr [certObjW, certObjW])]

/-- Its validated form. -/
def vicalW : VICAL :=
  { version := "1.0", vicalProvider := "Provider", date := .valid 5000,
    certificateInfos := [certW, certW] }

/-- Witness for C2 on a concrete two-record payload. -/
theorem C2_count_and_order_witness :
    ∃ xs, getField dataW "certificateInfos" = some (.vArr xs) ∧
      vicalW.certificateInfos.length = xs.length ∧
      ∀ i (h1 : i < xs.length) (h2 : i < vicalW.certificateInfos.length),
        parseCertificateInfo strDate0 (xs.get ⟨i, h1⟩) =
          .ok (vicalW.certificateInfos.get ⟨i, h2⟩) :=
  C2_count_and_order strDate0 dataW vicalW (by rfl)

/-- The four mandatory top-level payload fields. -/
def reqVICALFields : List String := ["version", "vicalProvider", "date", "certificateInfos"]

/-- The four mandatory certificate-record fields. -/
def reqCertFields : List String := ["certificate", "serialNumber", "ski", "docType"]

/-- The first top-level mandatory-field check that fires, in the source's
check order (absence or a falsy present value both fire). -/
def firstMissingVICALField (data : List (String × Value)) : Option String :=
  if !truthyField data "version" then some "version"
  else if !truthyField data "vicalProvider" then some "vicalProvider"
  else if !truthyField data "date" then some "date"
  else if !truthyField data "certificateInfos" then some "certificateInfos"
  else none

/-- The first certificate-record mandatory-field check that fires, in the
source's check order (serialNumber fires only on absence, the others on
absence or falsiness). -/
def firstMissingCertField (x : Value) : Option String :=
  if !truthyProp x "certificate" then some "certificate"
  else if (jsProp x "serialNumber").isNone then some "serialNumber"
  else if !truthyProp x "ski" then some "ski"
  else if !truthyProp x "docType" then some "docType"
  else none

lemma truthyField_ne_none (data : List (String × Value)) (k : String)
    (h : truthyField data k = true) : getField data k ≠ none := by
  obtain ⟨v, hv, -⟩ := truthyField_some data k h
  simp [hv]

lemma truthyProp_ne_none (x : Value) (k : String)
    (h : truthyProp x k = true) : jsProp x k ≠ none := by
  unfold truthyProp at h
  cases hg : jsProp x k with
  | none => rw [hg] at h; simp at h
  | some v => simp

/-- Claim C1 (amended): absence of any mandatory field guarantees the parse
fails and no value is produced; for a NON-NULL certificate record (and at
the top level) the error raised is the missing-field VICALParseError
naming the first mandatory check, in source order, that fires — a check
fires on absence or (except serialNumber) on a falsy present value — so
with several fields missing the error names the earliest one, not each
of them; a NULL certificate record (all four fields absent) instead
aborts the parse with the bare TypeError thrown by reading
data.certificate on null. -/
theorem C1_missing_fields_amended :
    (∀ (f : String → JSDate) (data : List (String × Value)),
      (∃ k, k ∈ reqVICALFields ∧ getField data k = none) →
      ∀ r, parseVICALPayload f data ≠ .ok r) ∧
    (∀ (f : String → JSDate) (data : List (String × Value)) (k : String),
      firstMissingVICALField data = some k →
      parseVICALPayload f data =
        .error (.vical ⟨"VICAL missing required field: " ++ k, none⟩)) ∧
    (∀ (f : String → JSDate) (x : Value),
      (∃ k, k ∈ reqCertFields ∧ jsProp x k = none) →
      ∀ c, parseCertificateInfo f x ≠ .ok c) ∧
    (∀ (f : String → JSDate) (x : Value) (k : String),
      isNullV x = false →
      firstMissingCertField x = some k →
      parseCertificateInfo f x =
        .error (.vical ⟨"CertificateInfo missing required field: " ++ k, none⟩)) ∧
    (∀ (f : String → JSDate) (data : List (String × Value)) (xs : List Value) (y : Value),
      getField data "certificateInfos" = some (.vArr xs) → y ∈ xs →
      (∃ k, k ∈ reqCertFields ∧ jsProp y k = none) →
      ∀ r, parseVICALPayload f data ≠ .ok r) ∧
    (∀ (f : String → JSDate),
      parseCertificateInfo f .vNull = .error (.thrown nullReadMsg)) := by
  refine ⟨?_, ?_, ?_, ?_, ?_, fun f => rfl⟩
  · rintro f data ⟨k, hk, hnone⟩ r hok
    obtain ⟨hv1, hv2, hv3, hv4, -, -, -⟩ := payload_ok_inv f data r hok
    simp only [reqVICALFields, List.mem_cons, List.not_mem_nil, or_false] at hk
    rcases hk with rfl | rfl | rfl | rfl
    · exact truthyField_ne_none data _ hv1 hnone
    · exact truthyField_ne_none data _ hv2 hnone
    · exact truthyField_ne_none data _ hv3 hnone
    · exact truthyField_ne_none data _ hv4 hnone
  · intro f data k h
    unfold firstMissingVICALField at h
    unfold parseVICALPayload
    cases h1 : truthyField data "version" with
    | false =>
        simp only [h1, Bool.not_false, if_pos] at h ⊢
        injection h with h
        rw [← h]
        simp
    | true =>
        simp only [h1, Bool.not_true, Bool.false_eq_true, if_false] at h ⊢
        cases h2 : truthyField data "vicalProvider" with
        | false =>
            simp only [h2, Bool.not_false, if_pos] at h ⊢
            injection h with h
            rw [← h]
            simp
        | true =>
            simp only [h2, Bool.not_true, Bool.false_eq_true, if_false] at h ⊢
            cases h3 : truthyField data "date" with
            | false =>
                simp only [h3, Bool.not_false, if_pos] at h ⊢
                injection h with h
                rw [← h]
                simp
            | true =>
                simp only [h3, Bool.not_true, Bool.false_eq_true, if_false] at h ⊢
                cases h4 : truthyField data "certificateInfos" with
                | false =>
                    simp only [h4, Bool.not_false, if_pos] at h ⊢
                    injection h with h
                    rw [← h]
                    simp
                | true =>
                    simp only [h4, Bool.not_true, Bool.false_eq_true, if_false] at h
                    simp at h
  · rintro f x ⟨k, hk, hnone⟩ c hok
    obtain ⟨hc1, hc2, hc3, hc4⟩ := certInfo_ok_inv f x c hok
    simp only [reqCertFields, List.mem_cons, List.not_mem_nil, or_false] at hk
    rcases hk with rfl | rfl | rfl | rfl
    · exact truthyProp_ne_none x _ hc1 hnone
    · exact hc2 hnone
    · exact truthyProp_ne_none x _ hc3 hnone
    · exact truthyProp_ne_none x _ hc4 hnone
  · intro f x k hnull h
    unfold firstMissingCertField at h
    unfold parseCertificateInfo
    simp only [hnull, Bool.false_eq_true, if_false]
    cases h1 : truthyProp x "certificate" with
    | false =>
        simp only [h1, Bool.not_false, if_pos] at h ⊢
        injection h with h
        rw [← h]
        simp
    | true =>
        simp only [h1, Bool.not_true, Bool.false_eq_true, if_false] at h ⊢
        cases h2 : (jsProp x "serialNumber").isNone with
        | true =>
            simp only [h2, if_pos] at h ⊢
            injection h with h
            rw [← h]
            simp
        | false =>
            simp only [h2, Bool.false_eq_true, if_false] at h ⊢
            cases h3 : truthyProp x "ski" with
            | false =>
                simp only [h3, Bool.not_false, if_pos] at h ⊢
                injection h with h
                rw [← h]
                simp
            | true =>
                simp only [h3, Bool.not_true, Bool.false_eq_true, if_false] at h ⊢
                cases h4 : truthyProp x "docType" with
                | false =>
                    simp only [h4, Bool.not_false, if_pos] at h ⊢
                    injection h with h
                    rw [← h]
                    simp
                | true =>
                    simp only [h4, Bool.not_true, Bool.false_eq_true, if_false] at h
                    simp at h
  · rintro f data xs y hxs hy ⟨k, hk, hnone⟩ r hok
    obtain ⟨-, -, -, -, -, -, xs', hxs', hcis⟩ := payload_ok_inv f data r hok
    rw [hxs] at hxs'
    have hxx : xs = xs' := by
      injection hxs' with hxs'
      injection hxs'
    subst hxx
    obtain ⟨c, hc⟩ := parseCertInfos_ok_mem f xs _ hcis y hy
    obtain ⟨hc1, hc2, hc3, hc4⟩ := certInfo_ok_inv f y c hc
    simp only [reqCertFields, List.mem_cons, List.not_mem_nil, or_false] at hk
    rcases hk with rfl | rfl | rfl | rfl
    · exact truthyProp_ne_none y _ hc1 hnone
    · exact hc2 hnone
    · exact truthyProp_ne_none y _ hc3 hnone
    · exact truthyProp_ne_none y _ hc4 hnone

/-- A payload mapping where vicalProvider, date and certificateInfos are
all absent. -/
def dataC1 : List (String × Value) := [("version", .vStr "1.0")]

/-- Counterexample to C1 as stated: in `dataC1` the mandatory field `date`
is absent, yet the parse error raised names `vicalProvider`, not `date`
(the source reports only the first failing check), so the error does not
name the absent field quantified over. -/
theorem C1_counterexample :
    getField dataC1 "date" = none ∧
    parseVICALPayload strDate0 dataC1 =
      .error (.vical ⟨"VICAL missing required field: vicalProvider", none⟩) ∧
    (VICALParseError.mk "VICAL missing required field: vicalProvider" none ≠
      VICALParseError.mk "VICAL missing required field: date" none) ∧
    exceptIsOk (parseVICALPayload strDate0 dataC1) = false := by
  exact ⟨rfl, rfl, by decide, rfl⟩

/-- Witness for the amended C1: on `dataC1` the first firing check is
vicalProvider and the parse raises exactly that missing-field error. -/
theorem C1_missing_fields_amended_witness :
    parseVICALPayload strDate0 dataC1 =
      .error (.vical ⟨"VICAL missing required field: " ++ "vicalProvider", none⟩) ∧
    parseCertificateInfo strDate0 .vNull = .error (.thrown nullReadMsg) :=
  ⟨C1_missing_fields_amended.2.1 strDate0 dataC1 "vicalProvider" (by rfl),
   C1_missing_fields_amended.2.2.2.2.2 strDate0⟩

/-- Claim C4 (amended): when the date field is present and truthy, and for
any present next-update field, the coercion follows the rule — native
date unchanged, string through the RFC-3339 date constructor, numeric n
as n seconds after the epoch, and any other type aborts the parse with
the date type error; but a date field present with the falsy value 0 is
reported as a missing field instead of being coerced. -/
theorem C4_date_coercion_amended :
    (∀ (f : String → JSDate) (data : List (String × Value)) (v : Value),
      getField data "date" = some v →
      ((∀ d, v = .vDate d → ∀ r, parseVICALPayload f data = .ok r → r.date = d) ∧
       (∀ s, v = .vStr s → ∀ r, parseVICALPayload f data = .ok r → r.date = f s) ∧
       (∀ n, v = .vNum n → ∀ r, parseVICALPayload f data = .ok r → r.date = .valid (n * 1000)) ∧
       (truthy v = true →
        truthyField data "version" = true →
        truthyField data "vicalProvider" = true →
        truthyField data "certificateInfos" = true →
        parseDate f v = .error ⟨"Invalid date format: " ++ typeofStr v, none⟩ →
        parseVICALPayload f data =
          .error (.vical ⟨"Invalid date format: " ++ typeofStr v, none⟩)))) ∧
    (∀ (f : String → JSDate) (data : List (String × Value)),
      getField data "date" = some (.vNum 0) →
      truthyField data "version" = true →
      truthyField data "vicalProvider" = true →
      parseVICALPayload f data =
        .error (.vical ⟨"VICAL missing required field: date", none⟩)) ∧
    (∀ (f : String → JSDate) (data : List (String × Value)) (w : Value),
      getField data "nextUpdate" = some w →
      ((∀ d, w = .vDate d → ∀ r, parseVICALPayload f data = .ok r → r.nextUpdate = some d) ∧
       (∀ s, w = .vStr s → ∀ r, parseVICALPayload f data = .ok r → r.nextUpdate = some (f s)) ∧
       (∀ n, w = .vNum n → ∀ r, parseVICALPayload f data = .ok r →
          r.nextUpdate = some (.valid (n * 1000))) ∧
       (exceptIsOk (parseDate f w) = false →
          ∀ r, parseVICALPayload f data ≠ .ok r))) := by
  refine ⟨?_, ?_, ?_⟩
  · intro f data v hdate
    refine ⟨?_, ?_, ?_, ?_⟩
    · intro d hv r hok
      subst hv
      obtain ⟨-, -, -, -, hd, -, -, -, -⟩ := payload_ok_inv f data r hok
      rw [fieldOr_eq data "date" _ hdate] at hd
      simp [parseDate] at hd
      exact hd.symm
    · intro s hv r hok
      subst hv
      obtain ⟨-, -, -, -, hd, -, -, -, -⟩ := payload_ok_inv f data r hok
      rw [fieldOr_eq data "date" _ hdate] at hd
      simp [parseDate] at hd
      exact hd.symm
    · intro n hv r hok
      subst hv
      obtain ⟨-, -, -, -, hd, -, -, -, -⟩ := payload_ok_inv f data r hok
      rw [fieldOr_eq data "date" _ hdate] at hd
      simp [parseDate] at hd
      exact hd.symm
    · intro htr hv1 hv2 hv4 hpd
      have hd3 : truthyField data "date" = true := by
        unfold truthyField
        rw [hdate]
        exact htr
      unfold parseVICALPayload
      simp only [hv1, Bool.not_true, Bool.false_eq_true, if_false]
      simp only [hv2, Bool.not_true, Bool.false_eq_true, if_false]
      simp only [hd3, Bool.not_true, Bool.false_eq_true, if_false]
      simp only [hv4, Bool.not_true, Bool.false_eq_true, if_false]
      rw [fieldOr_eq data "date" v hdate, hpd]
  · intro f data hdate hv1 hv2
    have hd3 : truthyField data "date" = false := by
      unfold truthyField
      rw [hdate]
      rfl
    unfold parseVICALPayload
    simp only [hv1, Bool.not_true, Bool.false_eq_true, if_false]
    simp only [hv2, Bool.not_true, Bool.false_eq_true, if_false]
    simp only [hd3, Bool.not_false, if_pos]
  · intro f data w hw
    refine ⟨?_, ?_, ?_, ?_⟩
    · intro d hv r hok
      subst hv
      obtain ⟨-, -, -, -, -, hnu, -, -, -⟩ := payload_ok_inv f data r hok
      rw [hw] at hnu
      simp [parseOptDate, parseDate] at hnu
      exact hnu.symm
    · intro s hv r hok
      subst hv
      obtain ⟨-, -, -, -, -, hnu, -, -, -⟩ := payload_ok_inv f data r hok
      rw [hw] at hnu
      simp [parseOptDate, parseDate] at hnu
      exact hnu.symm
    · intro n hv r hok
      subst hv
      obtain ⟨-, -, -, -, -, hnu, -, -, -⟩ := payload_ok_inv f data r hok
      rw [hw] at hnu
      simp [parseOptDate, parseDate] at hnu
      exact hnu.symm
    · intro hfail r hok
      obtain ⟨-, -, -, -, -, hnu, -, -, -⟩ := payload_ok_inv f data r hok
      rw [hw] at hnu
      cases hpd : parseDate f w with
      | ok d => simp [exceptIsOk, hpd] at hfail
      | error e => simp [parseOptDate, hpd] at hnu

/-- A well-formed payload mapping except that its date field holds the
falsy number 0. -/
def dataC4 : List (String × Value) :=
  [("version", .vStr "1.0"), ("vicalProvider", .vStr "p"),
   ("date", .vNum 0), ("certificateInfos", .vArr [])]

/-- Counterexample to C4 as stated: the numeric date value 0 is present but
is not interpreted as the epoch timestamp — the truthiness presence check
treats it as missing and the parse fails. -/
theorem C4_counterexample :
    getField dataC4 "date" = some (.vNum 0) ∧
    parseVICALPayload strDate0 dataC4 =
      .error (.vical ⟨"VICAL missing required field: date", none⟩) ∧
    exceptIsOk (parseVICALPayload strDate0 dataC4) = false := ⟨rfl, rfl, rfl⟩

/-- Witness for the amended C4: on a concrete payload whose date is the
number 5, the parsed date is the epoch-seconds instant 5000 ms. -/
theorem C4_date_coercion_amended_witness : vicalW.date = .valid (5 * 1000) :=
  ((C4_date_coercion_amended.1 strDate0 dataW (.vNum 5) (by rfl)).2.2.1) 5 rfl vicalW (by rfl)

/-- Replace the value of a field (JS object property assignment; the key is
appended when absent, which no caller here relies on). -/
def updateField : List (String × Value) → String → Value → List (String × Value)
  | [], k, v => [(k, v)]
  | (k', v') :: rest, k, v =>
      if k' == k then (k', v) :: rest else (k', v') :: updateField rest k v

lemma getField_cons (a : String) (b : Value) (rest : List (String × Value)) (k : String) :
    getField ((a, b) :: rest) k = if a = k then some b else getField rest k := by
  unfold getField
  rw [List.find?_cons]
  by_cases h : a = k
  · subst h
    simp
  · have hb : (a == k) = false := beq_eq_false_iff_ne.mpr h
    simp [hb, h]

lemma getField_updateField_other (data : List (String × Value)) (k k' : String) (v : Value)
    (h : k' ≠ k) : getField (updateField data k v) k' = getField data k' := by
  induction data with
  | nil =>
      show getField [(k, v)] k' = getField [] k'
      rw [getField_cons]
      have hkk : ¬ k = k' := fun hh => h hh.symm
      simp [getField, List.find?, hkk]
  | cons p rest ih =>
      obtain ⟨a, b⟩ := p
      by_cases hak : a = k
      · subst hak
        have hb : (a == a) = true := beq_self_eq_true a
        simp only [updateField, hb, if_pos]
        rw [getField_cons, getField_cons]
        have hak : ¬ a = k' := fun hh => h hh.symm
        simp [hak]
      · have hb : (a == k) = false := beq_eq_false_iff_ne.mpr hak
        simp only [updateField, hb, Bool.false_eq_true, if_false]
        rw [getField_cons, getField_cons, ih]

lemma getField_updateField_same (data : List (String × Value)) (k : String) (v w : Value)
    (h : getField data k = some w) : getField (updateField data k v) k = some v := by
  induction data with
  | nil => simp [getField, List.find?] at h
  | cons p rest ih =>
      obtain ⟨a, b⟩ := p
      by_cases hak : a = k
      · subst hak
        have hb : (a == a) = true := beq_self_eq_true a
        simp only [updateField, hb, if_pos]
        rw [getField_cons]
        simp
      · have hb : (a == k) = false := beq_eq_false_iff_ne.mpr hak
        simp only [updateField, hb, Bool.false_eq_true, if_false]
        rw [getField_cons] at h
        rw [getField_cons]
        simp only [hak, if_false] at h ⊢
        exact ih h

/-- A well-formed payload mapping whose date field is a string that is not
an RFC-3339 timestamp. -/
def dataC10 : List (String × Value) :=
  [("version", .vStr "1.0"), ("vicalProvider", .vStr "p"),
   ("date", .vStr "definitely-not-a-timestamp"), ("certificateInfos", .vArr [])]

/-- The value it parses to: the overall parse succeeds and the date is the
Invalid Date value. -/
def vicalC10 : VICAL :=
  { version := "1.0", vicalProvider := "p", date := .invalid, certificateInfos := [] }

/-- Claim C10 (amended): date coercion never fails on a string — every
string becomes a (possibly Invalid) date value — and for a NON-EMPTY
string the whole parse behaves exactly as if the corresponding native
date value had been supplied, so an unparsable timestamp string still
yields a successful parse; an empty string, however, is falsy and is
reported as a missing date field. -/
theorem C10_string_date_amended :
    (∀ (f : String → JSDate) (s : String), parseDate f (.vStr s) = .ok (f s)) ∧
    (∀ (f : String → JSDate) (data : List (String × Value)) (s : String),
      getField data "date" = some (.vStr s) → s ≠ "" →
      parseVICALPayload f data =
        parseVICALPayload f (updateField data "date" (.vDate (f s)))) ∧
    parseVICALPayload strDate0 dataC10 = .ok vicalC10 := by
  refine ⟨fun f s => rfl, ?_, by rfl⟩
  intro f data s hdate hs
  have hsame : getField (updateField data "date" (.vDate (f s))) "date" =
      some (.vDate (f s)) := getField_updateField_same data "date" _ _ hdate
  have hver : getField (updateField data "date" (.vDate (f s))) "version" =
      getField data "version" := getField_updateField_other data "date" "version" _ (by decide)
  have hprov : getField (updateField data "date" (.vDate (f s))) "vicalProvider" =
      getField data "vicalProvider" :=
    getField_updateField_other data "date" "vicalProvider" _ (by decide)
  have hci : getField (updateField data "date" (.vDate (f s))) "certificateInfos" =
      getField data "certificateInfos" :=
    getField_updateField_other data "date" "certificateInfos" _ (by decide)
  have hnu : getField (updateField data "date" (.vDate (f s))) "nextUpdate" =
      getField data "nextUpdate" :=
    getField_updateField_other data "date" "nextUpdate" _ (by decide)
  have hid : getField (updateField data "date" (.vDate (f s))) "vicalIssueID" =
      getField data "vicalIssueID" :=
    getField_updateField_other data "date" "vicalIssueID" _ (by decide)
  have hext : getField (updateField data "date" (.vDate (f s))) "extensions" =
      getField data "extensions" :=
    getField_updateField_other data "date" "extensions" _ (by decide)
  have hd1 : truthyField data "date" = true := by
    unfold truthyField
    rw [hdate]
    simpa [truthy] using hs
  have hd2 : truthyField (updateField data "date" (.vDate (f s))) "date" = true := by
    unfold truthyField
    rw [hsame]
    rfl
  unfold parseVICALPayload
  unfold truthyField fieldOr
  rw [hver, hprov, hci, hnu, hid, hext, hdate, hsame]
  have hpd1 : parseDate f (.vStr s) = .ok (f s) := rfl
  have hpd2 : parseDate f (.vDate (f s)) = .ok (f s) := rfl
  have hbs : (s != "") = true := by simpa using hs
  simp only [Option.getD_some, truthy, hpd1, hpd2, hbs]

/-- A payload whose date field is the empty string. -/
def dataC10e : List (String × Value) :=
  [("version", .vStr "1.0"), ("vicalProvider", .vStr "p"),
   ("date", .vStr ""), ("certificateInfos", .vArr [])]

/-- Counterexample to C10 as stated: the empty string supplied as the date
field does not produce an invalid date value with a successful parse —
the truthiness presence check treats it as missing and the parse fails. -/
theorem C10_counterexample :
    getField dataC10e "date" = some (.vStr "") ∧
    parseVICALPayload strDate0 dataC10e =
      .error (.vical ⟨"VICAL missing required field: date", none⟩) ∧
    exceptIsOk (parseVICALPayload strDate0 dataC10e) = false := ⟨rfl, rfl, rfl⟩

/-- Witness for the amended C10: on the concrete payload with a non-RFC3339
date string, substituting the coerced native date leaves the parse result
unchanged. -/
theorem C10_string_date_amended_witness :
    parseVICALPayload strDate0 dataC10 =
      parseVICALPayload strDate0
        (updateField dataC10 "date" (.vDate (strDate0 "definitely-not-a-timestamp"))) :=
  C10_string_date_amended.2.1 strDate0 dataC10 "definitely-not-a-timestamp" (by rfl) (by decide)

/-- True exactly for the parser's own error class. -/
def isVicalErr : JSError → Bool
  | .vical _ => true
  | .thrown _ => false

/-- A concrete instance of the external CBOR decoder: the byte [0] decodes
to a COSE_Sign1 array whose protected header is the byte 0xFF; every
other input — including the lone 0xFF, which is a CBOR break byte and
not a valid top-level item — fails to decode. -/
def decEx : List Nat → Except String Value := fun bs =>
  if bs = [0] then .ok (.vArr [.vBytes [255], .vMap [], .vBytes [1], .vBytes [2]])
  else .error "unexpected end of CBOR data"

lemma certInfo_thrown (f : String → JSDate) (x : Value) (m : String)
    (h : parseCertificateInfo f x = .error (.thrown m)) : m = nullReadMsg := by
  unfold parseCertificateInfo at h
  split at h
  · injection h with h
    injection h with h
    exact h.symm
  · repeat' split at h
    all_goals simp at h

lemma certInfos_thrown (f : String → JSDate) (xs : List Value) (m : String)
    (h : parseCertInfos f xs = .error (.thrown m)) : m = nullReadMsg := by
  induction xs with
  | nil => simp [parseCertInfos] at h
  | cons x t ih =>
      unfold parseCertInfos at h
      split at h
      · next e he =>
          injection h with h
          subst h
          exact certInfo_thrown f x m he
      · next c hc =>
          split at h
          · next e he =>
              injection h with h
              subst h
              exact ih he
          · simp at h

lemma payload_thrown (f : String → JSDate) (data : List (String × Value)) (m : String)
    (h : parseVICALPayload f data = .error (.thrown m)) : m = nullReadMsg := by
  unfold parseVICALPayload at h
  split at h
  · simp at h
  next =>
  split at h
  · simp at h
  next =>
  split at h
  · simp at h
  next =>
  split at h
  · simp at h
  next =>
  split at h
  · simp at h
  next dateV hd =>
  split at h
  · simp at h
  next nextUp hnu =>
  split at h
  case _ xs hci =>
    split at h
    · next e he =>
        injection h with h
        subst h
        exact certInfos_thrown f xs m he
    · simp at h
  case _ hne => simp at h

/-- Claim C8 (amended): whenever the top-level parse fails with something
other than a VICALParseError, the failure is one of exactly two
unguarded escapes: either the envelope and COSE structure had parsed
successfully and the failure is the external decoder's error on the
protected-header bytes (that decode call is outside any try/catch), or
it is the TypeError thrown by reading a property of a null certificate
record; every other failure is a VICALParseError.  (Numbers are embedded
as integers, so the further RangeError the source can raise from
`BigInt` on a non-integral serial number lies outside this model.) -/
theorem C8_error_kind_amended :
    ∀ (dec : List Nat → Except String Value) (f : String → JSDate) (input : List Nat)
      (m : String),
      parseVICAL dec f input = .error (.thrown m) →
      (∃ v arr cs, dec input = .ok v ∧ unwrapEnvelope v = .ok arr ∧
        parseCoseSign1 arr = .ok cs ∧ dec cs.protectedHeader = .error m) ∨
      m = nullReadMsg := by
  intro dec f input m h
  unfold parseVICAL at h
  split at h
  · simp at h
  next v hv =>
  split at h
  · simp at h
  next arr harr =>
  split at h
  · simp at h
  next cs hcs =>
  split at h
  case _ e he =>
      have hem : e = .thrown m := by injection h
      subst hem
      left
      refine ⟨v, arr, cs, hv, harr, hcs, ?_⟩
      unfold extractAlgorithm at he
      split at he
      · next msg hdec =>
          injection he with he
          injection he with he
          rw [← he]
          exact hdec
      · split at he
        · simp at he
        · simp at he
  next alg halg =>
  split at h
  · simp at h
  next vd hvd =>
  split at h
  · split at h
    · next e he =>
        injection h with h
        subst h
        right
        exact payload_thrown f (objFields vd) m he
    · simp at h
  · simp at h

/-- Counterexample to C8 as stated: on the input [0] the parse fails, but
the failure is the external decoder's own error escaping from the
unguarded protected-header decode, not a VICALParseError. -/
theorem C8_counterexample :
    parseVICAL decEx strDate0 [0] = .error (.thrown "unexpected end of CBOR data") ∧
    isVicalErr (.thrown "unexpected end of CBOR data") = false := ⟨rfl, rfl⟩

/-- Witness for the amended C8 at the concrete decoder and input. -/
theorem C8_error_kind_amended_witness :
    (∃ v arr cs, decEx [0] = .ok v ∧ unwrapEnvelope v = .ok arr ∧
      parseCoseSign1 arr = .ok cs ∧
      decEx cs.protectedHeader = .error "unexpected end of CBOR data") ∨
    "unexpected end of CBOR data" = nullReadMsg :=
  C8_error_kind_amended decEx strDate0 [0] "unexpected end of CBOR data" (by rfl)

/-- A concrete instance of the external CBOR decoder for the C9 scenario:
the byte [1] decodes to a COSE_Sign1 array whose unprotected header is a
plain object carrying the certificate chain under the key "33"; the byte
[2] (the protected header) decodes to a map assigning algorithm -7 to
label 1; the byte [3] (the payload) decodes to a minimal valid VICAL
object. -/
def decEx9 : List Nat → Except String Value := fun bs =>
  if bs = [1] then
    .ok (.vArr [.vBytes [2], .vObj [("33", .vBytes [1, 2, 3])], .vBytes [3], .vBytes [9]])
  else if bs = [2] then .ok (.vMap [(.int 1, .vNum (-7))])
  else if bs = [3] then
    .ok (.vObj [("version", .vStr "1.0"), ("vicalProvider", .vStr "p"),
                ("date", .vNum 5), ("certificateInfos", .vArr [])])
  else .error "nope"

/-- The value `parseVICAL decEx9 strDate0 [1]` actually produces: the
object-like unprotected header was coerced into a map with the STRING
key "33", and the signer certificate is absent. -/
def sv9 : SignedVICAL :=
  { coseSign1 := { protectedHeader := [2],
                   unprotectedHeader := [(.str "33", .vBytes [1, 2, 3])],
                   payload := [3], signature := [9] },
    vical := { version := "1.0", vicalProvider := "p", date := .valid 5000,
               certificateInfos := [] },
    algorithm := .vNum (-7),
    signerCertificate := none,
    rawBytes := [1] }

/-- Claim C9 evaluated at its failing input: the unprotected header is an
object-like representation whose property "33" holds the certificate
bytes, yet the parse succeeds with NO signer certificate — the
`new Map(Object.entries(...))` coercion produces the string key "33",
which the integer-key lookup `get(33)` never finds. -/
theorem C9_object_header_signer_lost :
    getField [("33", .vBytes [1, 2, 3])] "33" = some (.vBytes [1, 2, 3]) ∧
    parseVICAL decEx9 strDate0 [1] = .ok sv9 ∧
    sv9.signerCertificate = none ∧
    lookupK (objEntries (.vObj [("33", .vBytes [1, 2, 3])])) (.int 33) = none :=
  ⟨rfl, rfl, rfl, rfl⟩
